import Mathlib

/-!
# Verification of the CDR open-banking lakehouse pipeline

A shallow embedding of the core of `cdr_pipeline` (the ingestion pipeline and
the QA gate engine) together with proofs about the behaviour its specification
describes.  Each Python function named below is translated into an executable
Lean definition; HTTP and database effects become explicit oracle functions and
state values.

Source files embedded:
* `src/cdr_pipeline/http_client.py` — `get_with_version_fallback`
* `src/cdr_pipeline/ingest.py` — `_discover_brands`, `_fetch_products_for_brand`,
  `run_ingest` (discovery/orchestration skeleton)
* `src/cdr_pipeline/db.py` — the `transaction` context manager
* `src/cdr_pipeline/drift.py` — `_extract_paths`, `fingerprint_payload`,
  `record_and_detect_drift`
* `src/cdr_pipeline/qa.py` — `_gate_min`, `_gate_max`, `_gate_min_from_query`,
  `_gate_max_from_query`, `_resolve_relation`, `_clip_text` and the gate
  sequence of `run_qa`
-/

namespace CdrPipeline

/-! ## JSON-like values

Payloads are parsed JSON (`resp.json()` / `json.dumps` in the source).  Python
numbers are modelled as integers: no claim depends on the numeric value of a
payload (fingerprinting looks only at structure), so the mantissa/exponent
detail is irrelevant here. -/

/-- A JSON-like value as handled by the pipeline (`dict` / `list` / scalars /
`None` in Python).  Objects keep their insertion order, as Python dicts do. -/
inductive Json where
  | null
  | bool (b : Bool)
  | num (n : Int)
  | str (s : String)
  | arr (elems : List Json)
  | obj (members : List (String × Json))

/-- Python truthiness of a JSON value (`bool(x)`): `None`, `False`, `0`, `""`,
`[]` and `{}` are falsy, everything else truthy. -/
def Json.truthy : Json → Bool
  | .null => false
  | .bool b => b
  | .num n => n != 0
  | .str s => !s.isEmpty
  | .arr es => !es.isEmpty
  | .obj ms => !ms.isEmpty

/-- `d.get(k)` on a Python dict: the value bound to `k`, later bindings
shadowing earlier ones (Python dict construction keeps the last duplicate). -/
def Json.get? (k : String) : Json → Option Json
  | .obj ms => (ms.filter (fun kv => kv.1 = k)).getLast? |>.map (·.2)
  | _ => none

/-- Python `x or y` (returns `x` when truthy, else `y`). -/
def pyOr (x y : Json) : Json := if x.truthy then x else y

/-! ## `http_client.get_with_version_fallback` (http_client.py lines 40-80)

The HTTP transport becomes an oracle `attempt : Int → Option Resp`: the
response `session.get` produces when the request carries `x-v = v`, or `none`
when the call raises `requests.RequestException` (after the adapter's own
retries, which are below this level of abstraction).  The body is kept as the
decoded text together with its parse result, which is what the callers in
`ingest.py` look at. -/

/-- An HTTP response as the pipeline observes it: status code, the optional
`x-v` response header, the body text (`resp.text` / `resp.content`, assumed to
agree on emptiness) and the result of `resp.json()` (`none` = parse raises). -/
structure Resp where
  status : Nat
  xvHeader : Option String
  text : String
  json : Option Json

/-- Digits of a Python decimal literal, allowing single underscores between
digits as `int()` does (`int("2_0") = 20`). -/
def parseDigitsU : List Char → Option Nat
  | [] => none
  | c :: rest =>
    if c.isDigit then go (c.toNat - 48) rest else none
where
  go (acc : Nat) : List Char → Option Nat
    | [] => some acc
    | '_' :: c :: rest => if c.isDigit then go (acc * 10 + (c.toNat - 48)) rest else none
    | c :: rest => if c.isDigit then go (acc * 10 + (c.toNat - 48)) rest else none

/-- Python `int(s)` on a header string: strip surrounding whitespace, optional
sign, then digits; `none` models `ValueError`.  (Headers reach `requests`
latin-1-decoded, so the exotic Unicode digits `int()` would also accept cannot
occur here.) -/
def pyParseInt (s : String) : Option Int :=
  match s.trim.toList with
  | '+' :: rest => (parseDigitsU rest).map Int.ofNat
  | '-' :: rest => (parseDigitsU rest).map (fun n => -(Int.ofNat n))
  | cs => (parseDigitsU cs).map Int.ofNat

/-- `int(responded) if responded else fallbackV`, with `ValueError` caught and
mapped to `fallbackV` (http_client.py lines 65-69 and 76-80). -/
def headerVersion (hdr : Option String) (fallbackV : Int) : Int :=
  match hdr with
  | none => fallbackV
  | some s =>
    if s.isEmpty then fallbackV
    else match pyParseInt s with
      | some n => n
      | none => fallbackV

/-- Outcome of `get_with_version_fallback`: either the `HttpRequestFailed`
exception, or the returned `(response, version)` pair. -/
inductive FetchResult where
  | transportError
  | response (r : Resp) (xv : Int)

/-- `versions = [preferred_xv] + [v for v in fallback_versions if v != preferred_xv]`
(http_client.py line 48). -/
def versionsList (preferred : Int) (fallbacks : List Int) : List Int :=
  preferred :: fallbacks.filter (fun v => v ≠ preferred)

/-- The `for xv in versions` loop of `get_with_version_fallback`, carrying the
`last_resp` accumulator; on exhaustion, the fallthrough of lines 72-80. -/
def gwvfLoop (attempt : Int → Option Resp) (preferred : Int) :
    List Int → Option Resp → FetchResult
  | [], lastResp =>
    match lastResp with
    | some r => .response r (headerVersion r.xvHeader preferred)
    | none => .transportError
  | v :: rest, lastResp =>
    match attempt v with
    | none => gwvfLoop attempt preferred rest lastResp
    | some r =>
      if r.status ≠ 406 then .response r (headerVersion r.xvHeader v)
      else gwvfLoop attempt preferred rest (some r)

/-- `get_with_version_fallback` (http_client.py lines 40-80).  `transportError`
is the `HttpRequestFailed` raise of line 73, reached exactly when the loop
never obtained a response. -/
def get_with_version_fallback (attempt : Int → Option Resp) (preferred : Int)
    (fallbacks : List Int) : FetchResult :=
  gwvfLoop attempt preferred (versionsList preferred fallbacks) none

/-! ## SHA-256 (`hashlib.sha256(...).hexdigest()` as used in drift.py line 34)

A direct executable implementation over `Nat` with explicit reduction modulo
`2^32` wherever 32-bit overflow matters. -/

/-- Reduce to a 32-bit word. -/
def w32 (n : Nat) : Nat := n % 4294967296

/-- Right rotation of a 32-bit word. -/
def rotr (k x : Nat) : Nat := w32 ((x >>> k) ||| (x <<< (32 - k)))

/-- Trial-division primality, enough to name the primes SHA-256's constants
are drawn from. -/
def isPrimeTD (n : Nat) : Bool :=
  decide (2 ≤ n) &&
    ((List.range n).drop 2).all (fun d => decide (n % d ≠ 0))

/-- The first `k` primes below `bound`. -/
def firstPrimes (k bound : Nat) : List Nat :=
  ((List.range bound).filter isPrimeTD).take k

/-- Integer cube root by bisection (the fuel of 200 covers the bit width of
every argument used here). -/
def cbrtAux (n : Nat) : Nat → Nat → Nat → Nat
  | 0, lo, _ => lo
  | fuel + 1, lo, hi =>
    let mid := (lo + hi) / 2
    if mid = lo then lo
    else if mid * mid * mid ≤ n then cbrtAux n fuel mid hi
    else cbrtAux n fuel lo mid

/-- `⌊n^(1/3)⌋`. -/
def natCbrt (n : Nat) : Nat := cbrtAux n 200 0 (n + 1)

/-- The 64 SHA-256 round constants: the first 32 bits of the fractional parts
of the cube roots of the first 64 primes (FIPS 180-4 §4.2.2). -/
def shaK : List Nat :=
  (firstPrimes 64 312).map (fun p => natCbrt (p * 2 ^ 96) % 4294967296)

/-- The eight working variables of the compression function. -/
structure Hash8 where
  a : Nat
  b : Nat
  c : Nat
  d : Nat
  e : Nat
  f : Nat
  g : Nat
  h : Nat
deriving DecidableEq, Repr

/-- The SHA-256 initial hash value: the first 32 bits of the fractional parts
of the square roots of the first 8 primes (FIPS 180-4 §5.3.3). -/
def shaH0 : Hash8 :=
  let hs := (firstPrimes 8 20).map (fun p => Nat.sqrt (p * 2 ^ 64) % 4294967296)
  ⟨hs.getD 0 0, hs.getD 1 0, hs.getD 2 0, hs.getD 3 0,
   hs.getD 4 0, hs.getD 5 0, hs.getD 6 0, hs.getD 7 0⟩

/-- `k` bytes of `n`, big-endian. -/
def natToBytesBE (k n : Nat) : List Nat :=
  (List.range k).map (fun i => (n >>> (8 * (k - 1 - i))) % 256)

/-- Merkle-Damgård padding: `0x80`, zeros to 56 mod 64, then the 64-bit
big-endian bit length. -/
def padMsg (msg : List Nat) : List Nat :=
  let z := (56 + 64 - (msg.length + 1) % 64) % 64
  msg ++ [0x80] ++ List.replicate z 0 ++ natToBytesBE 8 (msg.length * 8)

/-- Big-endian 32-bit words from a byte list (length a multiple of 4). -/
def bytesToWords : List Nat → List Nat
  | b0 :: b1 :: b2 :: b3 :: rest =>
    (b0 * 16777216 + b1 * 65536 + b2 * 256 + b3) :: bytesToWords rest
  | _ => []

/-- Append the next word of the message schedule (indices 16-63). -/
def scheduleStep (w : List Nat) : List Nat :=
  let n := w.length
  let w15 := w.getD (n - 15) 0
  let w2 := w.getD (n - 2) 0
  let w16 := w.getD (n - 16) 0
  let w7 := w.getD (n - 7) 0
  let s0 := w32 ((rotr 7 w15) ^^^ (rotr 18 w15) ^^^ (w15 >>> 3))
  let s1 := w32 ((rotr 17 w2) ^^^ (rotr 19 w2) ^^^ (w2 >>> 10))
  w ++ [w32 (w16 + s0 + w7 + s1)]

/-- Extend the 16 block words to the 64-entry message schedule. -/
def schedule (w : List Nat) : List Nat :=
  (List.range 48).foldl (fun acc _ => scheduleStep acc) w

/-- One SHA-256 compression round. -/
def compressRound (st : Hash8) (k w : Nat) : Hash8 :=
  let s1 := w32 ((rotr 6 st.e) ^^^ (rotr 11 st.e) ^^^ (rotr 25 st.e))
  let ch := w32 ((st.e &&& st.f) ^^^ ((st.e ^^^ 4294967295) &&& st.g))
  let t1 := w32 (st.h + s1 + ch + k + w)
  let s0 := w32 ((rotr 2 st.a) ^^^ (rotr 13 st.a) ^^^ (rotr 22 st.a))
  let maj := w32 ((st.a &&& st.b) ^^^ (st.a &&& st.c) ^^^ (st.b &&& st.c))
  let t2 := w32 (s0 + maj)
  ⟨w32 (t1 + t2), st.a, st.b, st.c, w32 (st.d + t1), st.e, st.f, st.g⟩

/-- Compress one 64-byte block into the running hash. -/
def compressBlock (h : Hash8) (block : List Nat) : Hash8 :=
  let ws := schedule (bytesToWords block)
  let st := (shaK.zip ws).foldl (fun s kw => compressRound s kw.1 kw.2) h
  ⟨w32 (h.a + st.a), w32 (h.b + st.b), w32 (h.c + st.c), w32 (h.d + st.d),
   w32 (h.e + st.e), w32 (h.f + st.f), w32 (h.g + st.g), w32 (h.h + st.h)⟩

/-- Split a byte list into 64-byte blocks. -/
def chunks64 : List Nat → List (List Nat)
  | [] => []
  | b :: rest => ((b :: rest).take 64) :: chunks64 ((b :: rest).drop 64)
termination_by l => l.length
decreasing_by simp [List.length_drop]; omega

/-- SHA-256 of a byte sequence. -/
def sha256bytes (msg : List Nat) : Hash8 :=
  (chunks64 (padMsg msg)).foldl compressBlock shaH0

/-- A hex digit character. -/
def hexDigit (n : Nat) : Char :=
  if n < 10 then Char.ofNat (48 + n) else Char.ofNat (87 + n)

/-- Lower-case hex of one 32-bit word. -/
def wordToHex (n : Nat) : String :=
  String.mk ((List.range 8).map (fun i => hexDigit ((n >>> (4 * (7 - i))) % 16)))

/-- The UTF-8 bytes of a string (`.encode("utf-8")`). -/
def strBytes (s : String) : List Nat := s.toUTF8.toList.map (fun b => b.toNat)

/-- `hashlib.sha256(s.encode("utf-8")).hexdigest()`. -/
def sha256hex (s : String) : String :=
  let h := sha256bytes (strBytes s)
  String.join ([h.a, h.b, h.c, h.d, h.e, h.f, h.g, h.h].map wordToHex)

/-! ## `drift._extract_paths` and `drift.fingerprint_payload` (drift.py lines 11-35) -/

/-- `np = f"{p}.{k}" if p else k` (drift.py line 19). -/
def joinKey (p k : String) : String := if p = "" then k else p ++ "." ++ k

/-- `np = f"{p}[]" if p else "[]"` (drift.py line 23). -/
def arrPath (p : String) : String := if p = "" then "[]" else p ++ "[]"

mutual

/-- The inner `rec` of `_extract_paths` (drift.py lines 14-26), returning the
paths it adds in visiting order; the Python `set` is recovered by `toFinset`
below.  Scalars and `None` contribute nothing. -/
def extractRec (maxDepth : Nat) : Json → String → Nat → List String
  | x, p, depth =>
    if depth > maxDepth then []
    else
      match x with
      | .obj kvs => extractKvs maxDepth kvs p depth
      | .arr es => arrPath p :: extractElems maxDepth 3 es (arrPath p) depth
      | _ => []

/-- The `for k, v in x.items()` loop of `rec`: each key contributes its path
and the recursion into its value. -/
def extractKvs (maxDepth : Nat) : List (String × Json) → String → Nat → List String
  | [], _, _ => []
  | (k, v) :: rest, p, depth =>
    (joinKey p k :: extractRec maxDepth v (joinKey p k) (depth + 1))
      ++ extractKvs maxDepth rest p depth

/-- The `for v in x[:3]` loop of `rec`: recursion into at most `budget` (= 3)
leading elements. -/
def extractElems (maxDepth : Nat) : Nat → List Json → String → Nat → List String
  | 0, _, _, _ => []
  | _, [], _, _ => []
  | budget + 1, v :: rest, np, depth =>
    extractRec maxDepth v np (depth + 1) ++ extractElems maxDepth budget rest np depth

end

/-- `_extract_paths(obj, p, max_depth)` (drift.py lines 11-29) as the set of
paths (the Python function returns a `set[str]`); `p` is its second, default
empty, argument. -/
def extract_paths (obj : Json) (p : String := "") (max_depth : Nat := 4) :
    Finset String :=
  (extractRec max_depth obj p 0).toFinset

/-- `sorted(_extract_paths(payload, max_depth=max_depth))` (drift.py line 33):
the deduplicated paths in ascending lexicographic (code-point) order, which is
Python's `str` ordering. -/
def fingerprint_paths (payload : Json) (max_depth : Nat := 4) : List String :=
  (extract_paths payload "" max_depth).sort (· ≤ ·)

/-- `fingerprint_payload` (drift.py lines 32-35): the SHA-256 hex digest of the
newline-joined sorted path list, together with that list. -/
def fingerprint_payload (payload : Json) (max_depth : Nat := 4) :
    String × List String :=
  let paths := fingerprint_paths payload max_depth
  (sha256hex (String.intercalate "\n" paths), paths)

/-! ## `drift.record_and_detect_drift` (drift.py lines 38-71)

The two `bronze` tables the function touches become explicit lists of rows, in
insertion order.  `observed_at` timestamps are naturals.  The `SELECT ...
ORDER BY observed_at DESC LIMIT 1` becomes `latestFingerprint`; on equal
timestamps SQL leaves the choice open and the model picks the
latest-inserted. -/

/-- A `bronze.schema_fingerprint` row. -/
structure FpRow where
  provider_id : String
  endpoint : String
  fingerprint_hash : String
  fingerprint_paths : List String
  observed_at : Nat
  run_id : String
deriving DecidableEq, Repr

/-- A `bronze.schema_drift_event` row. -/
structure DriftRow where
  provider_id : String
  endpoint : String
  old_fingerprint_hash : String
  new_fingerprint_hash : String
  observed_at : Nat
  run_id : String
  note : String
deriving DecidableEq, Repr

/-- The drift-related database state. -/
structure DriftDb where
  fingerprints : List FpRow
  drift_events : List DriftRow
deriving DecidableEq, Repr

/-- One step of the `ORDER BY observed_at DESC LIMIT 1` scan: keep the row
with the greater `observed_at`; SQL leaves a tie unconstrained and this model
lets the later-inserted row win. -/
def latestStep (acc : Option FpRow) (r : FpRow) : Option FpRow :=
  match acc with
  | none => some r
  | some a => if r.observed_at ≥ a.observed_at then some r else some a

/-- The `SELECT fingerprint_hash ... WHERE provider_id = %s AND endpoint = %s
ORDER BY observed_at DESC LIMIT 1` of drift.py lines 41-51: the row for the
pair with the greatest `observed_at` (no run filter). -/
def latestFingerprint (fps : List FpRow) (provider endpoint : String) :
    Option FpRow :=
  (fps.filter (fun r => r.provider_id = provider ∧ r.endpoint = endpoint)).foldl
    latestStep none

/-- `record_and_detect_drift` (drift.py lines 38-71).  The drift event is
emitted under `if old_hash and old_hash != new_hash` — Python truthiness, so an
empty stored hash would also suppress it. -/
def record_and_detect_drift (db : DriftDb) (provider_id endpoint : String)
    (payload : Json) (observed_at : Nat) (run_id : String) : DriftDb :=
  let fp := fingerprint_payload payload
  let old_hash := (latestFingerprint db.fingerprints provider_id endpoint).map
    (·.fingerprint_hash)
  let db₁ : DriftDb :=
    { db with fingerprints :=
        db.fingerprints ++ [⟨provider_id, endpoint, fp.1, fp.2, observed_at, run_id⟩] }
  match old_hash with
  | none => db₁
  | some oh =>
    if ¬oh.isEmpty ∧ oh ≠ fp.1 then
      { db₁ with drift_events :=
          db₁.drift_events ++
            [⟨provider_id, endpoint, oh, fp.1, observed_at, run_id,
              "Schema/path fingerprint changed"⟩] }
    else db₁

/-! ## The QA gate engine (qa.py)

Numeric gate values are modelled as integers (`Int`): every gate in `run_qa`
compares a count or an hour figure against an integral threshold, and the
repository's own tests drive `_gate_min`/`_gate_max` with Python ints, whose
`str` rendering the detail strings below reproduce exactly.

The database becomes two oracles: `existing`, the set of relation names
`to_regclass` resolves (qa.py lines 68-70), and `oracle`, mapping a query's SQL
text to its scalar result (`.ok none` = no rows / NULL, `.error e` = the query
raises `e`).  The connection keeps the one bit of psycopg2 state the code
manages: whether the current transaction has failed and needs `rollback()`
before further queries succeed. -/

/-- A `GateResult` (qa.py lines 18-24). -/
structure GateResult where
  name : String
  passed : Bool
  actual_value : Option Int
  threshold_value : Option Int
  details : String
deriving DecidableEq, Repr

/-- `_clip_text` (qa.py lines 31-34). -/
def clip_text (s : String) (max_chars : Nat := 4000) : String :=
  if s.length ≤ max_chars then s else (s.take (max_chars - 3)) ++ "..."

/-- `_gate_min` (qa.py lines 80-97): pass iff `actual ≥ threshold`. -/
def gate_min (name : String) (actual_value : Option Int) (threshold_value : Int)
    (unit : String := "") : GateResult :=
  match actual_value with
  | none =>
    { name := name, passed := false, actual_value := none,
      threshold_value := some threshold_value,
      details := "missing metric value; expected >= " ++ toString threshold_value ++ unit }
  | some a =>
    let passed := a ≥ threshold_value
    { name := name, passed := passed, actual_value := some a,
      threshold_value := some threshold_value,
      details := toString a ++ unit ++ (if passed then " >= " else " < ")
        ++ toString threshold_value ++ unit }

/-- `_gate_max` (qa.py lines 100-117): pass iff `actual ≤ threshold`. -/
def gate_max (name : String) (actual_value : Option Int) (threshold_value : Int)
    (unit : String := "") : GateResult :=
  match actual_value with
  | none =>
    { name := name, passed := false, actual_value := none,
      threshold_value := some threshold_value,
      details := "missing metric value; expected <= " ++ toString threshold_value ++ unit }
  | some a =>
    let passed := a ≤ threshold_value
    { name := name, passed := passed, actual_value := some a,
      threshold_value := some threshold_value,
      details := toString a ++ unit ++ (if passed then " <= " else " > ")
        ++ toString threshold_value ++ unit }

/-- The psycopg2 connection state the QA engine manages: whether the current
transaction is in the failed state (a raised query poisons it until
`rollback()`). -/
structure PgConn where
  failedTx : Bool
deriving DecidableEq, Repr

/-- `conn.rollback()`: clears the failed-transaction state. -/
def PgConn.rollback (_ : PgConn) : PgConn := ⟨false⟩

/-- A query-result oracle: the scalar each SQL text returns, or the error it
raises. -/
def QueryOracle := String → Except String (Option Int)

/-- `_fetch_number` (qa.py lines 58-65) against a poisonable connection: in a
failed transaction every query raises; a raising query poisons the
transaction. -/
def fetch_number (oracle : QueryOracle) (conn : PgConn) (sql : String) :
    PgConn × Except String (Option Int) :=
  if conn.failedTx then
    (conn, .error "current transaction is aborted")
  else
    match oracle sql with
    | .ok v => (conn, .ok v)
    | .error e => (⟨true⟩, .error e)

/-- `_relation_exists` (qa.py lines 68-70): `to_regclass` resolution, as
membership in the catalogue. -/
def relation_exists (existing : List String) (relation_name : String) : Bool :=
  existing.contains relation_name

/-- `_resolve_relation` (qa.py lines 73-77): first existing candidate. -/
def resolve_relation (existing : List String) (candidates : List String) :
    Option String :=
  candidates.find? (relation_exists existing)

/-- `_gate_min_from_query` (qa.py lines 120-140): a raised query becomes a
failed gate with the error text, after rolling the connection back. -/
def gate_min_from_query (oracle : QueryOracle) (conn : PgConn) (name : String)
    (threshold_value : Int) (sql : String) (unit : String := "") :
    PgConn × GateResult :=
  match fetch_number oracle conn sql with
  | (c, .error e) =>
    (c.rollback,
     { name := name, passed := false, actual_value := none,
       threshold_value := some threshold_value,
       details := clip_text ("query failed: " ++ e) })
  | (c, .ok v) => (c, gate_min name v threshold_value unit)

/-- `_gate_max_from_query` (qa.py lines 143-163). -/
def gate_max_from_query (oracle : QueryOracle) (conn : PgConn) (name : String)
    (threshold_value : Int) (sql : String) (unit : String := "") :
    PgConn × GateResult :=
  match fetch_number oracle conn sql with
  | (c, .error e) =>
    (c.rollback,
     { name := name, passed := false, actual_value := none,
       threshold_value := some threshold_value,
       details := clip_text ("query failed: " ++ e) })
  | (c, .ok v) => (c, gate_max name v threshold_value unit)

/-- The hardcoded missing-relation diagnostic of qa.py lines 225, 251 and 277,
as a function of the candidate list it names. -/
def missingRelationDetail (candidates : List String) : String :=
  "missing relation: expected " ++ String.intercalate " or " candidates

/-- The relation-backed minimum-gate pattern repeated at qa.py lines 201-227,
229-253 and 255-279: resolve one of the candidate relations, then query it;
if none exists record a failed gate with the diagnostic detail instead of
raising. -/
def relationMinGate (oracle : QueryOracle) (existing : List String)
    (conn : PgConn) (name : String) (threshold_value : Int)
    (candidates : List String) (sqlOf : String → String) :
    PgConn × GateResult :=
  match resolve_relation existing candidates with
  | some rel => gate_min_from_query oracle conn name threshold_value (sqlOf rel)
  | none =>
    (conn,
     { name := name, passed := false, actual_value := none,
       threshold_value := some threshold_value,
       details := missingRelationDetail candidates })

/-- The `providers_ok` SQL of qa.py lines 208-214 (whitespace normalised). -/
def providersOkSql (rel : String) : String :=
  "SELECT COUNT(*) FROM " ++ rel ++ " WHERE as_of_date = %s AND COALESCE(products_pages_ok, 0) > 0 AND COALESCE(last_http_status, 0) IN (200, 304)"

/-- The `dim_products_rows` SQL of qa.py lines 236-240. -/
def dimProductsSql (rel : String) : String :=
  "SELECT COUNT(*) FROM " ++ rel ++ " WHERE as_of_date = %s"

/-- The `rate_changes_rows` SQL of qa.py lines 262-266. -/
def rateChangesSql (rel : String) : String :=
  "SELECT COUNT(*) FROM " ++ rel ++ " WHERE current_as_of_date = %s"

/-- The freshness SQL of qa.py lines 286-289. -/
def freshnessSql : String :=
  "SELECT EXTRACT(EPOCH FROM ((%s::timestamptz) - MAX(fetched_at))) / 3600.0 FROM raw.products_raw"

/-- The drift-count SQL of qa.py lines 299-303. -/
def driftCountSql : String :=
  "SELECT COUNT(*) FROM bronze.schema_drift_event WHERE observed_at::date = %s"

/-- Python `str` of an optional number (`None` prints as `None`). -/
def showOptInt : Option Int → String
  | none => "None"
  | some n => toString n

/-- The drift-count segment of `run_qa` (qa.py lines 295-332): exactly one
`schema_drift_events` row is emitted on every path — a failed row with the
error text if the count query raises (rolling back first), a hard
threshold-zero `_gate_max` row when `fail_on_schema_drift` is set, and an
informational pass-always row otherwise. -/
def driftGateSegment (oracle : QueryOracle) (conn : PgConn)
    (fail_on_schema_drift : Bool) : PgConn × GateResult :=
  match fetch_number oracle conn driftCountSql with
  | (c, .error e) =>
    (c.rollback,
     { name := "schema_drift_events", passed := false, actual_value := none,
       threshold_value := if fail_on_schema_drift then some 0 else none,
       details := clip_text ("query failed: " ++ e) })
  | (c, .ok v) =>
    if fail_on_schema_drift then (c, gate_max "schema_drift_events" v 0)
    else
      (c,
       { name := "schema_drift_events", passed := true, actual_value := v,
         threshold_value := none,
         details := "observed=" ++ showOptInt v ++ "; fail gate disabled" })

/-- The `dbt_tests` gate of qa.py lines 334-341. -/
def dbtGate (should_run_dbt_tests dbt_passed : Bool) (dbt_details : String) :
    GateResult :=
  { name := "dbt_tests", passed := dbt_passed,
    actual_value := some (if dbt_passed then 1 else 0), threshold_value := some 1,
    details := if should_run_dbt_tests then dbt_details else "skipped" }

/-- The gate-evaluation sequence of `run_qa` (qa.py lines 198-341), in source
order, threading the connection state. -/
def qaGateSequence (oracle : QueryOracle) (existing : List String)
    (conn : PgConn) (min_providers min_products min_rate_changes max_freshness : Int)
    (fail_on_schema_drift should_run_dbt_tests dbt_passed : Bool)
    (dbt_details : String) : PgConn × List GateResult :=
  let s1 := relationMinGate oracle existing conn "providers_ok" min_providers
    ["gold.mart_provider_coverage", "public_gold.mart_provider_coverage"] providersOkSql
  let s2 := relationMinGate oracle existing s1.1 "dim_products_rows" min_products
    ["silver.dim_products", "public_silver.dim_products"] dimProductsSql
  let s3 := relationMinGate oracle existing s2.1 "rate_changes_rows" min_rate_changes
    ["gold.mart_rate_changes", "public_gold.mart_rate_changes"] rateChangesSql
  let s4 := gate_max_from_query oracle s3.1 "products_freshness_hours" max_freshness
    freshnessSql "h"
  let s5 := driftGateSegment oracle s4.1 fail_on_schema_drift
  (s5.1, [s1.2, s2.2, s3.2, s4.2, s5.2, dbtGate should_run_dbt_tests dbt_passed dbt_details])

/-! ## Ingestion: db.py and ingest.py

The single psycopg2 connection (`autocommit=False`) is modelled as the list of
committed rows plus the uncommitted writes of the current transaction.
`db.transaction` (db.py lines 54-62) commits the pending writes on success and
rolls them back — discarding them — on an exception, re-raising it.  A Python
exception carries no state, but the connection outlives it, so the `Except`
error value is the connection state at the raise.

Row values keep the columns the claims inspect; `fetched_at`, `etag` and
`payload_hash` columns, the bronze JSON files written by `_write_bronze_json`,
and the `raw.products_raw` upserts are elided.  The api-call log is kept as the
write sequence; `_log_api_call` upserts on its key, which never collides in
the runs modelled here. -/

/-- A `bronze.api_call_log` row as written by `_log_api_call`
(ingest.py lines 85-113). -/
structure ApiCallRow where
  run_id : String
  provider_id : String
  endpoint : String
  url : String
  http_status : Nat
  responded_xv : Option Int
  error : Option String
deriving DecidableEq, Repr

/-- A row written by the ingestion orchestrator. -/
inductive DbRow where
  | pipelineRun (run_id : String)
  | apiCall (row : ApiCallRow)
  | dataHolderBrand (run_id : String) (brand_id : Option String)
deriving DecidableEq, Repr

/-- The connection: committed rows and the current transaction's pending
writes. -/
structure PgState where
  committed : List DbRow
  pending : List DbRow
deriving DecidableEq, Repr

/-- `conn.commit()`. -/
def commitTx (s : PgState) : PgState := ⟨s.committed ++ s.pending, []⟩

/-- `conn.rollback()`: pending writes are discarded. -/
def rollbackTx (s : PgState) : PgState := ⟨s.committed, []⟩

/-- `db.transaction` (db.py lines 54-62): commit on success, roll back and
re-raise on an exception. -/
def withTransaction (s : PgState)
    (f : PgState → Except PgState (PgState × α)) : Except PgState (PgState × α) :=
  match f s with
  | .ok (s', a) => .ok (commitTx s', a)
  | .error s' => .error (rollbackTx s')

/-- `execute` of an insert: the row joins the transaction's pending writes. -/
def writeRow (s : PgState) (r : DbRow) : PgState :=
  { s with pending := s.pending ++ [r] }

/-- Python `str(x)` as the pipeline applies it to payload fragments (product
and brand identifiers).  The container renderings are placeholders: no claim
inspects `str` of a `dict`/`list`, and identifiers are scalars. -/
def pyStr : Json → String
  | .null => "None"
  | .bool true => "True"
  | .bool false => "False"
  | .num n => toString n
  | .str s => s
  | .arr _ => "[...]"
  | .obj _ => "{...}"

/-- `x.get(k, d)` with Python semantics: the default `d` only when the key is
absent (an explicit `None` value is returned as such), `AttributeError` when
`x` is not a dict. -/
def pyGetDefaultE (x : Json) (k : String) (d : Json) : Except String Json :=
  match x with
  | .obj _ => .ok ((x.get? k).getD d)
  | _ => .error "AttributeError: .get on non-dict"

/-- `x.get(k)`: default `None`. -/
def pyGetE (x : Json) (k : String) : Except String Json :=
  pyGetDefaultE x k .null

/-- Python `len`/iteration over a payload value: lists yield their elements,
strings their characters, dicts their keys (insertion order); anything else
raises `TypeError`. -/
def pyIter (x : Json) : Except String (List Json) :=
  match x with
  | .arr es => .ok es
  | .str s => .ok (s.toList.map (fun c => Json.str (String.mk [c])))
  | .obj ms => .ok (ms.map (fun kv => Json.str kv.1))
  | _ => .error "TypeError: not iterable"

/-- A `links.next` value handed to `_resolve_next_url` (ingest.py lines 48-54,
384-386): the empty string when falsy (so pagination ends), the string itself,
and `urlparse` raising on a truthy non-string. -/
def asNextUrl (x : Json) : Except String String :=
  match x with
  | .str s => .ok s
  | j => if j.truthy then .error "AttributeError: urlparse on non-string" else .ok ""

/-- The `for p in products` accumulation of ingest.py lines 379-382:
`product_ids` is a Python set of `str(pid)`, kept here in insertion order. -/
def collectProductIds : List Json → List String → Except String (List String)
  | [], acc => .ok acc
  | p :: rest, acc => do
    let pid ← pyGetE p "productId"
    let acc := if pid.truthy ∧ pyStr pid ∉ acc then acc ++ [pyStr pid] else acc
    collectProductIds rest acc

/-- The non-success error text of `_log_api_call` callers (ingest.py lines 249,
360): `resp.text[:500] if resp.text else f"HTTP {status}"`. -/
def httpErrorText (r : Resp) : Option String :=
  if r.status = 200 then none
  else some (if ¬r.text.isEmpty then r.text.take 500 else "HTTP " ++ toString r.status)

/-! ### `_discover_brands` (ingest.py lines 206-264) -/

/-- The industry filter of ingest.py lines 257-263: keep brands whose
lower-cased `industries` contain `cfg.filter_industry.lower().strip()`. -/
def filterBrands (filt : String) : List Json → Except String (List Json)
  | [] => .ok []
  | b :: rest => do
    let indsJ ← pyGetE b "industries"
    let inds ← pyIter (pyOr indsJ (.arr []))
    let keep := (filt.toLower.trim) ∈ inds.map (fun x => (pyStr x).toLower)
    let tail ← filterBrands filt rest
    .ok (if keep then b :: tail else tail)

/-- `_discover_brands` (ingest.py lines 206-264).  `discFetch` is the outcome
of the registry call of lines 211-217; a raised exception carries the
connection state (with the failed-call row still pending, uncommitted). -/
def discover_brands (discFetch : FetchResult) (url filt run_id : String)
    (s : PgState) : Except PgState (PgState × List Json) :=
  let endpoint := "cdr-register:brands-summary"
  match discFetch with
  | .transportError =>
    -- lines 218-233: log the failed call, then re-raise HttpRequestFailed
    .error (writeRow s (.apiCall
      ⟨run_id, "cdr-register", endpoint, url, 0, none,
       some ("HTTP request failed for " ++ url)⟩))
  | .response r responded_xv =>
    let s := writeRow s (.apiCall
      ⟨run_id, "cdr-register", endpoint, url, r.status, some responded_xv,
       httpErrorText r⟩)
    -- _write_bronze_json (line 251) writes a file, not the database
    if r.status ≠ 200 then
      -- line 254: raise RuntimeError("Register discovery failed: ...")
      .error s
    else
      match r.json with
      | none => .error s  -- resp.json() raises on an unparseable body
      | some j =>
        -- line 256: (resp.json() or {}).get("data", [])
        match pyGetDefaultE (pyOr j (.obj [])) "data" (.arr []) with
        | .error _ => .error s
        | .ok dataV =>
          match pyIter dataV with
          | .error _ => .error s
          | .ok bs =>
            match filterBrands filt bs with
            | .error _ => .error s
            | .ok out => .ok (s, out)

/-! ### `_fetch_products_for_brand` (ingest.py lines 267-391)

The HTTP side becomes `fetchPage : String → FetchResult`, the outcome of
`get_with_version_fallback` per URL; URL resolution (`urljoin`) stays a
parameter, with `_resolve_next_url`'s empty-string short-circuit explicit.
The `record_and_detect_drift` call of line 376 is modelled separately
(`record_and_detect_drift` above); the `raw.products_raw` upsert of line 373
and the bronze file of line 363 are elided. -/

/-- The pagination loop state at the top of the `while next_url` loop. -/
structure PagState where
  next_url : String
  seen_urls : List String
  page_num : Nat
  total_products : Nat
  product_ids : List String
  log : List ApiCallRow
deriving DecidableEq, Repr

/-- The `while next_url:` loop of `_fetch_products_for_brand` (ingest.py lines
284-391).  `.ok` is normal loop exit (any `break` or the condition turning
false); `.error` is a propagating Python exception, carrying the state — and
so the rows logged so far — at the raise. -/
def fetchLoop (fetchPage : String → FetchResult)
    (resolveNext : String → String → String) (max_pages : Nat)
    (run_id provider_id endpoint : String) (st : PagState) :
    Except (String × PagState) PagState :=
  if st.next_url = "" then .ok st
  else if _hpn : st.page_num > max_pages then
    -- lines 285-300: page-limit stop, logged, no raise
    .ok { st with log := st.log ++
      [⟨run_id, provider_id, endpoint, st.next_url, 0, none,
        some ("Pagination limit exceeded (" ++ toString max_pages ++ ")")⟩] }
  else if st.next_url ∈ st.seen_urls then
    -- lines 302-317: loop-detection stop, logged, no raise
    .ok { st with log := st.log ++
      [⟨run_id, provider_id, endpoint, st.next_url, 0, none,
        some "Pagination loop detected from links.next"⟩] }
  else
    let st₀ := { st with seen_urls := st.seen_urls ++ [st.next_url] }
    match fetchPage st₀.next_url with
    | .transportError =>
      -- lines 329-343: HttpRequestFailed is logged and breaks the loop
      .ok { st₀ with log := st₀.log ++
        [⟨run_id, provider_id, endpoint, st₀.next_url, 0, none,
          some ("HTTP request failed for " ++ st₀.next_url)⟩] }
    | .response r xv =>
      let st₁ := { st₀ with log := st₀.log ++
        [⟨run_id, provider_id, endpoint, st₀.next_url, r.status, some xv,
          httpErrorText r⟩] }
      -- lines 365-371: parse only a non-empty 200 body; a parse failure logs
      -- a second row for the same key and leaves payload_obj = None
      let payloadObj : Option Json :=
        if r.status = 200 ∧ ¬r.text.isEmpty then r.json else none
      let st₂ : PagState :=
        if (r.status = 200 ∧ ¬r.text.isEmpty) ∧ r.json.isNone then
          { st₁ with log := st₁.log ++
            [⟨run_id, provider_id, endpoint, st₁.next_url, r.status, some xv,
              some "JSON parse error"⟩] }
        else st₁
      match payloadObj with
      | none => .ok st₂  -- line 389: break
      | some j =>
        -- line 376: record_and_detect_drift (modelled separately)
        match (do
            let dataJ ← pyGetE j "data"
            let productsJ ← pyGetE (pyOr dataJ (.obj [])) "products"
            let products ← pyIter (pyOr productsJ (.arr []))
            let ids ← collectProductIds products st₂.product_ids
            let linksJ ← pyGetE j "links"
            let nxtJ ← pyGetE (pyOr linksJ (.obj [])) "next"
            let nxt ← asNextUrl (pyOr nxtJ (.str ""))
            .ok (products.length, ids, nxt) :
            Except String (Nat × List String × String)) with
        | .error e => .error (e, st₂)
        | .ok (count, ids, nxt) =>
          let newNext := if nxt = "" then "" else resolveNext st₂.next_url nxt
          -- page_num += 1: the body never touched page_num, so the new value
          -- is st.page_num + 1
          fetchLoop fetchPage resolveNext max_pages run_id provider_id endpoint
            { st₂ with
              next_url := newNext
              page_num := st.page_num + 1
              total_products := st₂.total_products + count
              product_ids := ids }
termination_by max_pages + 1 - st.page_num
decreasing_by omega

/-- `_fetch_products_for_brand` from the first page: the loop entered at
`products_url` with `seen_urls = ∅`, `page_num = 1` (ingest.py lines 277-282);
returns `(total_products, product_ids)` and the rows logged. -/
def fetch_products_for_brand (fetchPage : String → FetchResult)
    (resolveNext : String → String → String) (max_pages : Nat)
    (run_id provider_id endpoint products_url : String) :
    Except (String × PagState) PagState :=
  fetchLoop fetchPage resolveNext max_pages run_id provider_id endpoint
    ⟨products_url, [], 1, 0, [], []⟩

/-! ### `run_ingest` (ingest.py lines 474-556) -/

/-- The provider-limit truncation of ingest.py lines 533-536:
`if limit and limit > 0: brands = brands[:limit]`. -/
def applyLimit (limit : Option Int) (brands : List Json) : List Json :=
  match limit with
  | none => brands
  | some l => if l > 0 then brands.take l.toNat else brands

/-- The discovery transaction body (ingest.py lines 497-531): discover, then
batch-insert every discovered brand row. -/
def discoveryPhase (discFetch : FetchResult) (url filt run_id : String)
    (s : PgState) : Except PgState (PgState × List Json) := do
  let (s, brands) ← discover_brands discFetch url filt run_id s
  let s := brands.foldl
    (fun acc b => writeRow acc
      (.dataHolderBrand run_id ((b.get? "dataHolderBrandId").map pyStr))) s
  .ok (s, brands)

/-- The per-provider loop of ingest.py lines 538-553: each brand in its own
transaction, any exception caught, logged and skipped.  The body
(`_fetch_products_for_brand` and the optional detail phase) is a parameter
`processProvider`, so theorems about the orchestration hold for every body. -/
def providerPhase (processProvider : Json → PgState → Except PgState (PgState × Unit))
    (brands : List Json) (s : PgState) : PgState :=
  brands.foldl
    (fun acc b =>
      match withTransaction acc (processProvider b) with
      | .ok (s', _) => s'
      | .error s' => s')
    s

/-- `run_ingest` (ingest.py lines 474-556): the run row in its own committed
transaction, then discovery inside `transaction(conn)` — whose failure
propagates and aborts the run — then the isolated per-provider loop. -/
def run_ingest (discFetch : FetchResult) (url filt run_id : String)
    (limit : Option Int)
    (processProvider : Json → PgState → Except PgState (PgState × Unit))
    (s₀ : PgState) : Except PgState PgState :=
  let s₁ := commitTx (writeRow s₀ (.pipelineRun run_id))
  match withTransaction s₁ (fun s => discoveryPhase discFetch url filt run_id s) with
  | .error s => .error s
  | .ok (s₂, brands) => .ok (providerPhase processProvider (applyLimit limit brands) s₂)

/-! ## Notions used by the statements about fingerprinting -/

/-- A payload that is neither an object nor an array (`_extract_paths` ignores
it). -/
def Json.isScalar : Json → Bool
  | .obj _ => false
  | .arr _ => false
  | _ => true

mutual

/-- `KeyPerm x y`: `y` is `x` with the key order of any of its objects
permuted — values follow their keys, array element order is untouched, and the
reordering may happen at any depth. -/
inductive KeyPerm : Json → Json → Prop
  | null : KeyPerm .null .null
  | bool (b : Bool) : KeyPerm (.bool b) (.bool b)
  | num (n : Int) : KeyPerm (.num n) (.num n)
  | str (s : String) : KeyPerm (.str s) (.str s)
  | arr {es fs : List Json} : KeyPermElems es fs → KeyPerm (.arr es) (.arr fs)
  | obj {l m m' : List (String × Json)} :
      KeyPermMembers l m → m.Perm m' → KeyPerm (.obj l) (.obj m')

/-- Pointwise `KeyPerm` on array elements (order preserved). -/
inductive KeyPermElems : List Json → List Json → Prop
  | nil : KeyPermElems [] []
  | cons {x y : Json} {xs ys : List Json} :
      KeyPerm x y → KeyPermElems xs ys → KeyPermElems (x :: xs) (y :: ys)

/-- Pointwise `KeyPerm` on object members (same keys, values related). -/
inductive KeyPermMembers :
    List (String × Json) → List (String × Json) → Prop
  | nil : KeyPermMembers [] []
  | cons {k : String} {x y : Json} {l m : List (String × Json)} :
      KeyPerm x y → KeyPermMembers l m →
      KeyPermMembers ((k, x) :: l) ((k, y) :: m)

end

mutual

/-- The structure `_extract_paths` can actually see, as a transformation on the
payload: nodes deeper than the `budget` are blanked to `null` (the depth
cut-off of drift.py line 15) and array elements past the third are dropped
(the `x[:3]` of line 25). -/
def truncateStructure : Nat → Json → Json
  | 0, _ => .null
  | c + 1, .obj kvs => .obj (truncMembers c kvs)
  | c + 1, .arr es => .arr (truncElems c 3 es)
  | _ + 1, x => x

/-- `truncateStructure` over object members. -/
def truncMembers (c : Nat) : List (String × Json) → List (String × Json)
  | [] => []
  | (k, v) :: rest => (k, truncateStructure c v) :: truncMembers c rest

/-- `truncateStructure` over at most the first `n` array elements. -/
def truncElems (c : Nat) : Nat → List Json → List Json
  | 0, _ => []
  | _, [] => []
  | n + 1, v :: rest => truncateStructure c v :: truncElems c n rest

end

/-! # Theorems -/

/-! ## The version-negotiating fetcher (claims C3, C4) -/

/-- The loop raises `HttpRequestFailed` exactly when no version yields a
response and nothing was accumulated. -/
theorem gwvfLoop_transportError_iff (attempt : Int → Option Resp)
    (preferred : Int) :
    ∀ (vs : List Int) (lastResp : Option Resp),
      gwvfLoop attempt preferred vs lastResp = .transportError ↔
        (∀ v ∈ vs, attempt v = none) ∧ lastResp = none
  | [], lastResp => by cases lastResp <;> simp [gwvfLoop]
  | v :: rest, lastResp => by
    cases hv : attempt v with
    | none =>
      simp [gwvfLoop, hv, List.forall_mem_cons,
        gwvfLoop_transportError_iff attempt preferred rest lastResp]
    | some r =>
      by_cases h406 : r.status = 406
      · simp [gwvfLoop, hv, h406, List.forall_mem_cons,
          gwvfLoop_transportError_iff attempt preferred rest (some r)]
      · simp [gwvfLoop, hv, h406, List.forall_mem_cons]

/-- If every version before `v` raised or was rejected with 406 and `v` yields
a non-406 response `r`, the loop returns `r` with the version of `v`'s header
fallback: no further version is tried. -/
theorem gwvfLoop_first_accepted (attempt : Int → Option Resp)
    (preferred : Int) :
    ∀ (vs₁ : List Int) (v : Int) (vs₂ : List Int) (r : Resp)
      (lastResp : Option Resp),
      (∀ u ∈ vs₁, attempt u = none ∨ ∃ ru, attempt u = some ru ∧ ru.status = 406) →
      attempt v = some r → r.status ≠ 406 →
      gwvfLoop attempt preferred (vs₁ ++ v :: vs₂) lastResp =
        .response r (headerVersion r.xvHeader v)
  | [], v, vs₂, r, lastResp, _, hv, h406 => by simp [gwvfLoop, hv, h406]
  | u :: rest, v, vs₂, r, lastResp, hprev, hv, h406 => by
    rcases hprev u (by simp) with hu | ⟨ru, hu, hru⟩
    · simpa [gwvfLoop, hu] using
        gwvfLoop_first_accepted attempt preferred rest v vs₂ r lastResp
          (fun w hw => hprev w (by simp [hw])) hv h406
    · simpa [gwvfLoop, hu, hru] using
        gwvfLoop_first_accepted attempt preferred rest v vs₂ r (some ru)
          (fun w hw => hprev w (by simp [hw])) hv h406

/-- If every response along the list is a 406, the loop falls through and
returns the last response obtained, versioned against `preferred`. -/
theorem gwvfLoop_all_rejected (attempt : Int → Option Resp) (preferred : Int) :
    ∀ (vs : List Int) (lastResp : Option Resp),
      (∀ v ∈ vs, ∀ rv, attempt v = some rv → rv.status = 406) →
      gwvfLoop attempt preferred vs lastResp =
        (match (lastResp.toList ++ vs.filterMap attempt).getLast? with
         | some r => .response r (headerVersion r.xvHeader preferred)
         | none => .transportError)
  | [], lastResp, _ => by cases lastResp <;> simp [gwvfLoop]
  | v :: rest, lastResp, h406 => by
    cases hv : attempt v with
    | none =>
      simpa [gwvfLoop, hv] using
        gwvfLoop_all_rejected attempt preferred rest lastResp
          (fun w hw rv hrv => h406 w (by simp [hw]) rv hrv)
    | some r =>
      have hr : r.status = 406 := h406 v (by simp) r hv
      have ih := gwvfLoop_all_rejected attempt preferred rest (some r)
        (fun w hw rv hrv => h406 w (by simp [hw]) rv hrv)
      have hlast : (lastResp.toList ++ (v :: rest).filterMap attempt).getLast?
          = ((some r).toList ++ rest.filterMap attempt).getLast? := by
        rw [List.filterMap_cons_some hv, List.getLast?_append_cons]
        rfl
      rw [show gwvfLoop attempt preferred (v :: rest) lastResp
            = gwvfLoop attempt preferred rest (some r) by simp [gwvfLoop, hv, hr],
        ih, hlast]

/-- C4: `get_with_version_fallback` raises its transport error iff every
version attempt raised a connection-level exception; any obtained HTTP
response (of any status) means a response is returned, and only a 406 moves
the loop past a version — the first non-406 response is returned as-is. -/
theorem get_with_version_fallback_transport_iff_and_only_406_falls_back
    (attempt : Int → Option Resp) (preferred : Int) (fallbacks : List Int) :
    (get_with_version_fallback attempt preferred fallbacks = .transportError ↔
      ∀ v ∈ versionsList preferred fallbacks, attempt v = none)
    ∧ (∀ v ∈ versionsList preferred fallbacks, ∀ r, attempt v = some r →
        ∃ r' xv, get_with_version_fallback attempt preferred fallbacks
          = .response r' xv)
    ∧ (∀ (vs₁ : List Int) (v : Int) (vs₂ : List Int) (r : Resp),
        versionsList preferred fallbacks = vs₁ ++ v :: vs₂ →
        (∀ u ∈ vs₁, attempt u = none ∨ ∃ ru, attempt u = some ru ∧ ru.status = 406) →
        attempt v = some r → r.status ≠ 406 →
        get_with_version_fallback attempt preferred fallbacks
          = .response r (headerVersion r.xvHeader v)) := by
  refine ⟨?_, ?_, ?_⟩
  · simpa using gwvfLoop_transportError_iff attempt preferred
      (versionsList preferred fallbacks) none
  · intro v hv r hr
    cases hres : get_with_version_fallback attempt preferred fallbacks with
    | transportError =>
      have := (gwvfLoop_transportError_iff attempt preferred
        (versionsList preferred fallbacks) none).mp hres
      rw [this.1 v hv] at hr
      exact absurd hr (by simp)
    | response r' xv => exact ⟨r', xv, rfl⟩
  · intro vs₁ v vs₂ r hsplit hprev hv h406
    unfold get_with_version_fallback
    rw [hsplit]
    exact gwvfLoop_first_accepted attempt preferred vs₁ v vs₂ r none hprev hv h406

/-- Witness for C4 at a concrete input: preferred version 1 is rejected with a
406, fallback version 2 answers 500 — no exception, the 500 response is
returned with version 2, and the transport-error condition is false. -/
theorem get_with_version_fallback_transport_iff_witness :
    get_with_version_fallback
      (fun v => if v = 1 then some ⟨406, none, "v1", none⟩
                else some ⟨500, none, "boom", none⟩) 1 [2]
      = .response ⟨500, none, "boom", none⟩ 2 := by
  have h := (get_with_version_fallback_transport_iff_and_only_406_falls_back
    (fun v => if v = 1 then some ⟨406, none, "v1", none⟩
              else some ⟨500, none, "boom", none⟩) 1 [2]).2.2
    [1] 2 [] ⟨500, none, "boom", none⟩ rfl
    (by
      intro u hu
      have : u = 1 := by simpa using hu
      exact Or.inr ⟨⟨406, none, "v1", none⟩, by simp [this], rfl⟩)
    (by norm_num) (by norm_num)
  simpa [headerVersion] using h

/-- C3 counterexample: with both versions rejected (406) and no response `x-v`
header, the returned response is the one produced by the last attempted
version (2 — its body text identifies it), yet the version returned alongside
it is the preferred version 1, not 2. -/
theorem get_with_version_fallback_last_rejected_version_counterexample :
    get_with_version_fallback
      (fun v => if v = 1 then some ⟨406, none, "from-v1", none⟩
                else some ⟨406, none, "from-v2", none⟩) 1 [2]
      = .response ⟨406, none, "from-v2", none⟩ 1
    ∧ (fun v : Int => if v = 1 then some ⟨406, none, "from-v1", none⟩
                else some (⟨406, none, "from-v2", none⟩ : Resp)) 2
        = some ⟨406, none, "from-v2", none⟩
    ∧ (1 : Int) ≠ 2 := by
  refine ⟨rfl, by norm_num, by norm_num⟩

/-- C3 amended: the version returned alongside the response is the server's
response header when present and parseable; otherwise it is the version
attempted on the request that produced the response when that response was
accepted (non-406), but in the all-rejected fallthrough it is the *preferred*
version, not the version of the last attempt. -/
theorem get_with_version_fallback_version_characterisation
    (attempt : Int → Option Resp) (preferred : Int) (fallbacks : List Int) :
    (∀ (s : String) (n fv : Int), ¬s.isEmpty → pyParseInt s = some n →
      headerVersion (some s) fv = n)
    ∧ (∀ fv : Int, headerVersion none fv = fv)
    ∧ (∀ (vs₁ : List Int) (v : Int) (vs₂ : List Int) (r : Resp),
        versionsList preferred fallbacks = vs₁ ++ v :: vs₂ →
        (∀ u ∈ vs₁, attempt u = none ∨ ∃ ru, attempt u = some ru ∧ ru.status = 406) →
        attempt v = some r → r.status ≠ 406 →
        get_with_version_fallback attempt preferred fallbacks
          = .response r (headerVersion r.xvHeader v))
    ∧ ((∀ v ∈ versionsList preferred fallbacks, ∀ rv, attempt v = some rv →
          rv.status = 406) →
        ∀ r, ((versionsList preferred fallbacks).filterMap attempt).getLast?
            = some r →
        get_with_version_fallback attempt preferred fallbacks
          = .response r (headerVersion r.xvHeader preferred)) := by
  refine ⟨?_, fun _ => rfl, ?_, ?_⟩
  · intro s n fv hne hparse
    simp [headerVersion, hne, hparse]
  · intro vs₁ v vs₂ r hsplit hprev hv h406
    unfold get_with_version_fallback
    rw [hsplit]
    exact gwvfLoop_first_accepted attempt preferred vs₁ v vs₂ r none hprev hv h406
  · intro hall r hlast
    unfold get_with_version_fallback
    rw [gwvfLoop_all_rejected attempt preferred _ none hall]
    simp [hlast]

/-- Witness for the amended C3 at a concrete input: both versions answer 406
without a header; the last response (from version 2) is returned with the
preferred version 1. -/
theorem get_with_version_fallback_version_characterisation_witness :
    get_with_version_fallback
      (fun v => if v = 1 then some ⟨406, none, "from-v1", none⟩
                else some ⟨406, none, "from-v2", none⟩) 1 [2]
      = .response ⟨406, none, "from-v2", none⟩ 1 := by
  have h := (get_with_version_fallback_version_characterisation
    (fun v => if v = 1 then some ⟨406, none, "from-v1", none⟩
              else some ⟨406, none, "from-v2", none⟩) 1 [2]).2.2.2
    (by
      intro v hv rv hrv
      by_cases h1 : v = 1
      · simp [h1] at hrv; simp [← hrv]
      · simp [h1] at hrv; simp [← hrv])
    ⟨406, none, "from-v2", none⟩ rfl
  simpa [headerVersion] using h

/-! ## Paginator termination precedence (claim C2) -/

/-- C2 counterexample: in a pagination state where the next URL was already
visited *and* the page count exceeds the maximum (reachable, e.g. a page whose
`next` points at itself with `MAX_PAGES_PER_PROVIDER = 1`), the recorded
stopping outcome is the page-limit record, not the loop-detected one — the
code checks the page limit first (ingest.py line 285 before line 302). -/
theorem fetchLoop_both_conditions_counterexample :
    (let st : PagState := ⟨"https://ex.com/products", ["https://ex.com/products"], 2, 1, ["q"], []⟩
    st.next_url ∈ st.seen_urls ∧ st.page_num > 1 ∧
      fetchLoop (fun _ => .transportError) (fun _ nxt => nxt) 1 "r1" "p1"
          "banking:get-products" st
        = .ok { st with log :=
            [⟨"r1", "p1", "banking:get-products", "https://ex.com/products", 0, none,
              some "Pagination limit exceeded (1)"⟩] })
    ∧ (some "Pagination limit exceeded (1)" : Option String)
        ≠ some "Pagination loop detected from links.next" := by
  refine ⟨⟨by simp, by norm_num, ?_⟩, by simp⟩
  unfold fetchLoop
  norm_num
  rw [if_neg (by decide)]
  rfl

/-- C2 amended: on every iteration the page-limit check runs *before* loop
detection — whenever the page count exceeds the maximum (in particular also
when the next URL was already visited) the recorded outcome is the page-limit
record; loop detection records its outcome only when the page count is within
the limit.  Both conditions stop pagination normally (`.ok`), raising no
exception. -/
theorem fetchLoop_stop_precedence (fetchPage : String → FetchResult)
    (resolveNext : String → String → String) (max_pages : Nat)
    (run_id provider_id endpoint : String) (st : PagState)
    (hne : st.next_url ≠ "") :
    (st.page_num > max_pages →
      fetchLoop fetchPage resolveNext max_pages run_id provider_id endpoint st
        = .ok { st with log := st.log ++
            [⟨run_id, provider_id, endpoint, st.next_url, 0, none,
              some ("Pagination limit exceeded (" ++ toString max_pages ++ ")")⟩] })
    ∧ (st.page_num ≤ max_pages → st.next_url ∈ st.seen_urls →
      fetchLoop fetchPage resolveNext max_pages run_id provider_id endpoint st
        = .ok { st with log := st.log ++
            [⟨run_id, provider_id, endpoint, st.next_url, 0, none,
              some "Pagination loop detected from links.next"⟩] }) := by
  constructor
  · intro hgt
    unfold fetchLoop
    simp [hne, hgt]
  · intro hle hmem
    unfold fetchLoop
    simp [hne, hmem, Nat.not_lt.mpr hle]

/-- Witness for the amended C2 at concrete states: a state over the limit with
the next URL already seen records the limit row; a state within the limit with
the next URL already seen records the loop row. -/
theorem fetchLoop_stop_precedence_witness :
    (2 : Nat) > 1 ∧ (1 : Nat) ≤ 9 ∧
    fetchLoop (fun _ => .transportError) (fun _ nxt => nxt) 1 "r1" "p1"
        "banking:get-products" ⟨"u", ["u"], 2, 0, [], []⟩
      = .ok ⟨"u", ["u"], 2, 0, [],
          [⟨"r1", "p1", "banking:get-products", "u", 0, none,
            some "Pagination limit exceeded (1)"⟩]⟩ ∧
    fetchLoop (fun _ => .transportError) (fun _ nxt => nxt) 9 "r1" "p1"
        "banking:get-products" ⟨"u", ["u"], 1, 0, [], []⟩
      = .ok ⟨"u", ["u"], 1, 0, [],
          [⟨"r1", "p1", "banking:get-products", "u", 0, none,
            some "Pagination loop detected from links.next"⟩]⟩ := by
  refine ⟨by norm_num, by norm_num, ?_, ?_⟩
  · exact (fetchLoop_stop_precedence (fun _ => .transportError) (fun _ nxt => nxt)
      1 "r1" "p1" "banking:get-products" ⟨"u", ["u"], 2, 0, [], []⟩
      (by simp)).1 (by norm_num)
  · exact (fetchLoop_stop_precedence (fun _ => .transportError) (fun _ nxt => nxt)
      9 "r1" "p1" "banking:get-products" ⟨"u", ["u"], 1, 0, [], []⟩
      (by simp)).2 (by norm_num) (by simp)

/-! ## Discovery failure and the diagnostic row (claim C1) -/

/-- C1: when discovery fails (here: the registry answers HTTP 500), the run
aborts before any provider processing — the outcome is an exception and is
independent of the provider-processing body — but the failed API-call record
written for the discovery call is *not* committed: `transaction(conn)` rolls
it back together with the rest of the discovery transaction, so the committed
state holds only the run row, contradicting the isolation the code's own
comment (ingest.py line 496) and the specification promise. -/
theorem run_ingest_discovery_failure_diagnostic_rolled_back :
    ∀ (pp : Json → PgState → Except PgState (PgState × Unit)) (limit : Option Int),
      run_ingest (.response ⟨500, none, "oops", none⟩ 2)
          "https://register/cdr-register/v1/banking/data-holders/brands/summary"
          "banking" "r1" limit pp ⟨[], []⟩
        = .error ⟨[.pipelineRun "r1"], []⟩
      ∧ ∀ row : ApiCallRow,
          DbRow.apiCall row ∉ ([DbRow.pipelineRun "r1"] : List DbRow) := by
  intro pp limit
  exact ⟨rfl, by simp⟩

/-! ## Fingerprint order-independence (claim C5) -/

/-- Permuting the members of one object level leaves the extracted path set
unchanged. -/
theorem extractKvs_perm (maxD : Nat) {l m : List (String × Json)}
    (h : l.Perm m) : ∀ (p : String) (d : Nat),
    (extractKvs maxD l p d).toFinset = (extractKvs maxD m p d).toFinset := by
  induction h with
  | nil => intro p d; rfl
  | cons kv _ ih =>
    intro p d
    obtain ⟨k, v⟩ := kv
    simp [extractKvs, List.toFinset_append, ih p d]
  | swap a b l =>
    intro p d
    obtain ⟨k₁, v₁⟩ := a
    obtain ⟨k₂, v₂⟩ := b
    ext s
    simp [extractKvs, List.toFinset_append]
    tauto
  | trans _ _ ih₁ ih₂ => intro p d; exact (ih₁ p d).trans (ih₂ p d)

/-- A zero budget extracts nothing from the elements of an array. -/
theorem extractElems_zero (maxD : Nat) (es : List Json) (np : String) (d : Nat) :
    extractElems maxD 0 es np d = [] := by
  cases es <;> rfl

mutual

/-- `KeyPerm`-related payloads extract equal path sets. -/
theorem extractRec_toFinset_keyPerm (maxD : Nat) :
    ∀ (x y : Json), KeyPerm x y → ∀ (p : String) (d : Nat),
      (extractRec maxD x p d).toFinset = (extractRec maxD y p d).toFinset
  | _, _, .null, _, _ => rfl
  | _, _, .bool _, _, _ => rfl
  | _, _, .num _, _, _ => rfl
  | _, _, .str _, _, _ => rfl
  | _, _, .arr helems, p, d => by
    by_cases hd : d > maxD
    · simp [extractRec, hd]
    · simp [extractRec, hd,
        extractElems_toFinset_keyPerm maxD 3 _ _ helems (arrPath p) d]
  | _, _, .obj hmem hperm, p, d => by
    by_cases hd : d > maxD
    · simp [extractRec, hd]
    · simpa [extractRec, hd] using
        (extractKvs_toFinset_keyPerm maxD _ _ hmem p d).trans
          (extractKvs_perm maxD hperm p d)

/-- Arrays: pointwise `KeyPerm` elements extract equal path sets, for every
budget. -/
theorem extractElems_toFinset_keyPerm (maxD : Nat) :
    ∀ (n : Nat) (es fs : List Json), KeyPermElems es fs →
      ∀ (np : String) (d : Nat),
      (extractElems maxD n es np d).toFinset
        = (extractElems maxD n fs np d).toFinset
  | 0, _, _, _, _, _ => by simp [extractElems_zero]
  | _ + 1, _, _, .nil, _, _ => rfl
  | n + 1, _, _, .cons hx hrest, np, d => by
    simp [extractElems, List.toFinset_append,
      extractRec_toFinset_keyPerm maxD _ _ hx np (d + 1),
      extractElems_toFinset_keyPerm maxD n _ _ hrest np d]

/-- Object members: pointwise `KeyPerm` values extract equal path sets. -/
theorem extractKvs_toFinset_keyPerm (maxD : Nat) :
    ∀ (l m : List (String × Json)), KeyPermMembers l m →
      ∀ (p : String) (d : Nat),
      (extractKvs maxD l p d).toFinset = (extractKvs maxD m p d).toFinset
  | _, _, .nil, _, _ => rfl
  | _, _, .cons hx hrest, p, d => by
    simp [extractKvs, List.toFinset_append,
      extractRec_toFinset_keyPerm maxD _ _ hx _ (d + 1),
      extractKvs_toFinset_keyPerm maxD _ _ hrest p d]

end

/-- C5: `fingerprint_payload` is invariant under permuting the key order of
any of the payload's objects, and the hash is by construction the SHA-256
digest of the newline-joined, lexicographically sorted path list. -/
theorem fingerprint_payload_key_order_independent (x y : Json) (maxD : Nat)
    (h : KeyPerm x y) :
    fingerprint_payload x maxD = fingerprint_payload y maxD
    ∧ fingerprint_payload x maxD
        = (sha256hex (String.intercalate "\n" (fingerprint_paths x maxD)),
           fingerprint_paths x maxD) := by
  have hsets : extract_paths x "" maxD = extract_paths y "" maxD :=
    extractRec_toFinset_keyPerm maxD x y h "" 0
  constructor
  · unfold fingerprint_payload fingerprint_paths
    rw [hsets]
  · rfl

/-- Witness for C5: swapping two keys of a concrete object yields the same
fingerprint. -/
theorem fingerprint_payload_key_order_independent_witness :
    KeyPerm (.obj [("a", .num 1), ("b", .null)])
      (.obj [("b", .null), ("a", .num 1)])
    ∧ fingerprint_payload (.obj [("a", .num 1), ("b", .null)]) 4
        = fingerprint_payload (.obj [("b", .null), ("a", .num 1)]) 4 := by
  have hkp : KeyPerm (.obj [("a", .num 1), ("b", .null)])
      (.obj [("b", .null), ("a", .num 1)]) :=
    KeyPerm.obj
      (KeyPermMembers.cons (KeyPerm.num 1)
        (KeyPermMembers.cons KeyPerm.null KeyPermMembers.nil))
      (List.Perm.swap ("b", Json.null) ("a", Json.num 1) [])
  exact ⟨hkp, (fingerprint_payload_key_order_independent _ _ 4 hkp).1⟩

/-! ## The path extraction rule and truncation (claims C6, C10) -/

/-- The member loop as a `flatMap`: each key contributes its path and the
recursion into its value. -/
theorem extractKvs_eq_flatMap (maxD : Nat) :
    ∀ (kvs : List (String × Json)) (p : String) (d : Nat),
      extractKvs maxD kvs p d
        = kvs.flatMap (fun kv =>
            joinKey p kv.1 :: extractRec maxD kv.2 (joinKey p kv.1) (d + 1))
  | [], _, _ => rfl
  | (k, v) :: rest, p, d => by
    simp [extractKvs, extractKvs_eq_flatMap maxD rest p d]

/-- The element loop as a `flatMap` over the first `n` elements. -/
theorem extractElems_eq_flatMap (maxD : Nat) :
    ∀ (n : Nat) (es : List Json) (np : String) (d : Nat),
      extractElems maxD n es np d
        = (es.take n).flatMap (fun v => extractRec maxD v np (d + 1))
  | 0, es, _, _ => by simp [extractElems_zero]
  | _ + 1, [], _, _ => rfl
  | n + 1, v :: rest, np, d => by
    simp [extractElems, extractElems_eq_flatMap maxD n rest np d]

mutual

/-- Blanking structure beyond the remaining budget `c` (and array elements
past the third) does not change the extracted paths, as long as the budget
covers the remaining visible depth. -/
theorem extractRec_truncateStructure (maxD : Nat) :
    ∀ (c : Nat) (x : Json) (p : String) (d : Nat), maxD + 1 ≤ d + c →
      extractRec maxD (truncateStructure c x) p d = extractRec maxD x p d
  | 0, x, p, d, hc => by
    have hd : d > maxD := by omega
    cases x <;> simp [truncateStructure, extractRec, hd]
  | c + 1, x, p, d, hc => by
    by_cases hd : d > maxD
    · cases x <;> simp [truncateStructure, extractRec, hd]
    · cases x with
      | null => rfl
      | bool b => rfl
      | num n => rfl
      | str s => rfl
      | arr es =>
        simp [truncateStructure, extractRec, hd,
          extractElems_truncElems maxD c 3 es (arrPath p) d (by omega)]
      | obj kvs =>
        simp [truncateStructure, extractRec, hd,
          extractKvs_truncMembers maxD c kvs p d (by omega)]

/-- `truncMembers` analogue of `extractRec_truncateStructure`. -/
theorem extractKvs_truncMembers (maxD : Nat) :
    ∀ (c : Nat) (kvs : List (String × Json)) (p : String) (d : Nat),
      maxD + 1 ≤ d + 1 + c →
      extractKvs maxD (truncMembers c kvs) p d = extractKvs maxD kvs p d
  | _, [], _, _, _ => rfl
  | c, (k, v) :: rest, p, d, hc => by
    simp [truncMembers, extractKvs,
      extractRec_truncateStructure maxD c v (joinKey p k) (d + 1) (by omega),
      extractKvs_truncMembers maxD c rest p d hc]

/-- `truncElems` analogue of `extractRec_truncateStructure`. -/
theorem extractElems_truncElems (maxD : Nat) :
    ∀ (c n : Nat) (es : List Json) (np : String) (d : Nat),
      maxD + 1 ≤ d + 1 + c →
      extractElems maxD n (truncElems c n es) np d = extractElems maxD n es np d
  | _, 0, es, np, d, _ => by simp [truncElems, extractElems_zero]
  | _, _ + 1, [], _, _, _ => rfl
  | c, n + 1, v :: rest, np, d, hc => by
    simp [truncElems, extractElems,
      extractRec_truncateStructure maxD c v np (d + 1) (by omega),
      extractElems_truncElems maxD c n rest np d hc]

end

/-- C6: the path extraction rule.  For a visited object each key contributes
`parent.key` and the recursion into its value; for a visited array one path
`parent[]` is contributed and only the first three elements are recursed into;
beyond the configured depth nothing is extracted; consequently structure
invisible to the rule — nodes deeper than the depth bound, array elements past
the third — never affects the hash. -/
theorem extract_paths_rule_and_truncation (maxD : Nat) :
    (∀ (kvs : List (String × Json)) (p : String) (d : Nat), d ≤ maxD →
      extractRec maxD (.obj kvs) p d
        = kvs.flatMap (fun kv =>
            joinKey p kv.1 :: extractRec maxD kv.2 (joinKey p kv.1) (d + 1)))
    ∧ (∀ (es : List Json) (p : String) (d : Nat), d ≤ maxD →
      extractRec maxD (.arr es) p d
        = arrPath p :: (es.take 3).flatMap
            (fun v => extractRec maxD v (arrPath p) (d + 1)))
    ∧ (∀ (x : Json) (p : String) (d : Nat), d > maxD →
      extractRec maxD x p d = [])
    ∧ (∀ x : Json,
      fingerprint_payload (truncateStructure (maxD + 1) x) maxD
        = fingerprint_payload x maxD) := by
  refine ⟨?_, ?_, ?_, ?_⟩
  · intro kvs p d hd
    simp [extractRec, Nat.not_lt.mpr hd, extractKvs_eq_flatMap]
  · intro es p d hd
    simp [extractRec, Nat.not_lt.mpr hd, extractElems_eq_flatMap]
  · intro x p d hd
    cases x <;> simp [extractRec, hd]
  · intro x
    unfold fingerprint_payload fingerprint_paths extract_paths
    rw [extractRec_truncateStructure maxD (maxD + 1) x "" 0 (by omega)]

/-- Witness for C6 at depth 4 and concrete payloads. -/
theorem extract_paths_rule_and_truncation_witness :
    (0 : Nat) ≤ 4 ∧ (5 : Nat) > 4 ∧
    extractRec 4 (.obj [("a", .null)]) "" 0
      = [("a", Json.null)].flatMap (fun kv =>
          joinKey "" kv.1 :: extractRec 4 kv.2 (joinKey "" kv.1) (0 + 1))
    ∧ extractRec 4 (.arr [.null, .bool true]) "" 0
      = arrPath "" :: ([Json.null, Json.bool true].take 3).flatMap
          (fun v => extractRec 4 v (arrPath "") (0 + 1))
    ∧ extractRec 4 (.num 3) "x" 5 = []
    ∧ fingerprint_payload (truncateStructure 5 (.str "s")) 4
        = fingerprint_payload (.str "s") 4 := by
  refine ⟨by norm_num, by norm_num, ?_, ?_, ?_, ?_⟩
  · exact (extract_paths_rule_and_truncation 4).1 [("a", Json.null)] "" 0
      (by norm_num)
  · exact (extract_paths_rule_and_truncation 4).2.1 [Json.null, Json.bool true]
      "" 0 (by norm_num)
  · exact (extract_paths_rule_and_truncation 4).2.2.1 (Json.num 3) "x" 5
      (by norm_num)
  · exact (extract_paths_rule_and_truncation 4).2.2.2 (Json.str "s")

/-- Scalars extract nothing. -/
theorem extractRec_scalar (maxD : Nat) (x : Json) (hx : x.isScalar = true)
    (p : String) (d : Nat) : extractRec maxD x p d = [] := by
  cases x with
  | null => simp [extractRec]
  | bool b => simp [extractRec]
  | num n => simp [extractRec]
  | str s => simp [extractRec]
  | arr es => simp [Json.isScalar] at hx
  | obj kvs => simp [Json.isScalar] at hx

/-- The fingerprint of every scalar payload: the SHA-256 of the empty string,
with an empty path list. -/
theorem fingerprint_payload_of_scalar (x : Json) (maxD : Nat)
    (hx : x.isScalar = true) :
    fingerprint_payload x maxD = (sha256hex "", []) := by
  unfold fingerprint_payload fingerprint_paths extract_paths
  rw [extractRec_scalar maxD x hx "" 0]
  simp only [List.toFinset_nil, Finset.sort_empty]
  rfl

/-- C10: fingerprinting is total on the `Json` model by construction, every
scalar or null payload extracts the empty path set and hashes to the SHA-256
of the empty string, any two scalar payloads share that signature, and
ingesting a scalar payload on top of a latest fingerprint that already carries
the scalar signature records no drift event. -/
theorem fingerprint_scalar_constant_hash :
    (∀ (x : Json) (maxD : Nat), x.isScalar = true →
      fingerprint_payload x maxD = (sha256hex "", []))
    ∧ (∀ (x y : Json) (maxD : Nat), x.isScalar = true → y.isScalar = true →
      fingerprint_payload x maxD = fingerprint_payload y maxD)
    ∧ (∀ (db : DriftDb) (prov ep : String) (x : Json) (t : Nat) (run : String),
      x.isScalar = true →
      (latestFingerprint db.fingerprints prov ep).map (·.fingerprint_hash)
        = some (sha256hex "") →
      (record_and_detect_drift db prov ep x t run).drift_events
        = db.drift_events) := by
  refine ⟨fun x maxD hx => fingerprint_payload_of_scalar x maxD hx, ?_, ?_⟩
  · intro x y maxD hx hy
    rw [fingerprint_payload_of_scalar x maxD hx,
      fingerprint_payload_of_scalar y maxD hy]
  · intro db prov ep x t run hx hlatest
    obtain ⟨r, hr, hrh⟩ : ∃ r, latestFingerprint db.fingerprints prov ep
        = some r ∧ r.fingerprint_hash = sha256hex "" := by
      cases hL : latestFingerprint db.fingerprints prov ep with
      | none => rw [hL] at hlatest; simp at hlatest
      | some r =>
        rw [hL] at hlatest
        exact ⟨r, rfl, by simpa using hlatest⟩
    have hfp : fingerprint_payload x = (sha256hex "", []) :=
      fingerprint_payload_of_scalar x 4 hx
    simp [record_and_detect_drift, hr, hrh, hfp]

/-- Witness for C10: a numeric payload against a stored scalar-signature
fingerprint row. -/
theorem fingerprint_scalar_constant_hash_witness :
    Json.isScalar (.num 7) = true
    ∧ Json.isScalar (.str "s") = true
    ∧ fingerprint_payload (.num 7) 4 = (sha256hex "", [])
    ∧ fingerprint_payload (.num 7) 4 = fingerprint_payload (.str "s") 4
    ∧ (latestFingerprint [⟨"p", "e", sha256hex "", [], 5, "r0"⟩] "p" "e").map
        (·.fingerprint_hash) = some (sha256hex "")
    ∧ (record_and_detect_drift ⟨[⟨"p", "e", sha256hex "", [], 5, "r0"⟩], []⟩
        "p" "e" (.num 7) 6 "r1").drift_events = [] := by
  refine ⟨rfl, rfl, ?_, ?_, rfl, ?_⟩
  · exact fingerprint_scalar_constant_hash.1 (.num 7) 4 rfl
  · exact fingerprint_scalar_constant_hash.2.1 (.num 7) (.str "s") 4 rfl rfl
  · exact fingerprint_scalar_constant_hash.2.2
      ⟨[⟨"p", "e", sha256hex "", [], 5, "r0"⟩], []⟩ "p" "e" (.num 7) 6 "r1"
      rfl rfl

/-! ## Drift recording (claim C7) -/

/-- `latestStep` always yields a row: the greater of its two inputs, by
`observed_at`. -/
theorem latestStep_spec (acc : Option FpRow) (r : FpRow) :
    ∃ c, latestStep acc r = some c ∧ r.observed_at ≤ c.observed_at
      ∧ (∀ a, acc = some a → a.observed_at ≤ c.observed_at)
      ∧ (c = r ∨ acc = some c) := by
  cases acc with
  | none => exact ⟨r, rfl, le_refl _, by simp, Or.inl rfl⟩
  | some a =>
    by_cases hge : r.observed_at ≥ a.observed_at
    · refine ⟨r, by simp [latestStep, hge], le_refl _, ?_, Or.inl rfl⟩
      intro a' ha'
      cases ha'
      exact hge
    · refine ⟨a, by simp [latestStep, hge], le_of_not_ge hge, ?_, Or.inr rfl⟩
      intro a' ha'
      cases ha'
      exact le_refl _

/-- Scanning from an existing candidate never loses it entirely. -/
theorem foldl_latestStep_ne_none :
    ∀ (l : List FpRow) (c : FpRow), l.foldl latestStep (some c) ≠ none
  | [], _ => by simp
  | r :: rest, c => by
    obtain ⟨c', hc', -⟩ := latestStep_spec (some c) r
    simpa [hc'] using foldl_latestStep_ne_none rest c'

/-- The scan yields `none` exactly on the empty list (from an empty
candidate). -/
theorem foldl_latestStep_eq_none_iff :
    ∀ (l : List FpRow), l.foldl latestStep none = none ↔ l = []
  | [] => by simp
  | r :: rest => by
    simp only [List.foldl_cons, latestStep]
    exact ⟨fun h => absurd h (foldl_latestStep_ne_none rest r), by simp⟩

/-- What the scan returns: a row of the list (or the initial candidate) whose
`observed_at` dominates the whole list and the candidate. -/
theorem foldl_latestStep_spec :
    ∀ (l : List FpRow) (acc : Option FpRow) (b : FpRow),
      l.foldl latestStep acc = some b →
      (b ∈ l ∨ acc = some b)
      ∧ (∀ x ∈ l, x.observed_at ≤ b.observed_at)
      ∧ (∀ a, acc = some a → a.observed_at ≤ b.observed_at)
  | [], acc, b => by
    intro h
    simp only [List.foldl_nil] at h
    refine ⟨Or.inr h, by simp, fun a ha => ?_⟩
    rw [h] at ha
    injection ha with hba
    rw [hba]
  | r :: rest, acc, b => by
    intro h
    obtain ⟨c, hc, hrc, hacc, hcr⟩ := latestStep_spec acc r
    rw [List.foldl_cons, hc] at h
    obtain ⟨hmem, hmax, hcand⟩ := foldl_latestStep_spec rest (some c) b h
    have hcb : c.observed_at ≤ b.observed_at := hcand c rfl
    refine ⟨?_, ?_, ?_⟩
    · rcases hmem with hb | hb
      · exact Or.inl (List.mem_cons_of_mem r hb)
      · rcases hcr with hcr | hcr
        · cases hb
          rw [hcr]
          exact Or.inl (List.mem_cons_self r rest)
        · cases hb
          exact Or.inr hcr
    · intro x hx
      rcases List.mem_cons.mp hx with hx | hx
      · rw [hx]; exact le_trans hrc hcb
      · exact hmax x hx
    · intro a ha
      exact le_trans (hacc a ha) hcb

/-- The consulted prior fingerprint is a stored row for the exact pair whose
`observed_at` dominates every stored row for that pair. -/
theorem latestFingerprint_spec (fps : List FpRow) (prov ep : String)
    (r : FpRow) (h : latestFingerprint fps prov ep = some r) :
    r ∈ fps ∧ r.provider_id = prov ∧ r.endpoint = ep
    ∧ ∀ r' ∈ fps, r'.provider_id = prov → r'.endpoint = ep →
        r'.observed_at ≤ r.observed_at := by
  unfold latestFingerprint at h
  obtain ⟨hmem, hmax, -⟩ := foldl_latestStep_spec _ none r h
  rcases hmem with hm | hm
  · rw [List.mem_filter] at hm
    have hflds : r.provider_id = prov ∧ r.endpoint = ep := by
      simpa using hm.2
    refine ⟨hm.1, hflds.1, hflds.2, ?_⟩
    intro r' hr' hp' he'
    exact hmax r' (List.mem_filter.mpr ⟨hr', by simp [hp', he']⟩)
  · cases hm

/-- No prior fingerprint exists exactly when no stored row is for the pair. -/
theorem latestFingerprint_none_iff (fps : List FpRow) (prov ep : String) :
    latestFingerprint fps prov ep = none ↔
      ∀ r ∈ fps, ¬(r.provider_id = prov ∧ r.endpoint = ep) := by
  unfold latestFingerprint
  rw [foldl_latestStep_eq_none_iff]
  simp

/-- `latestStep` does not look at `run_id`. -/
theorem latestStep_map_run (f : String → String) (acc : Option FpRow)
    (r : FpRow) :
    latestStep (acc.map (fun x => { x with run_id := f x.run_id }))
        { r with run_id := f r.run_id }
      = (latestStep acc r).map (fun x => { x with run_id := f x.run_id }) := by
  cases acc with
  | none => rfl
  | some a =>
    by_cases hge : r.observed_at ≥ a.observed_at <;>
      simp [latestStep, hge]

/-- The whole scan does not look at `run_id`. -/
theorem foldl_latestStep_map_run (f : String → String) :
    ∀ (l : List FpRow) (acc : Option FpRow),
      (l.map (fun x => { x with run_id := f x.run_id })).foldl latestStep
          (acc.map (fun x => { x with run_id := f x.run_id }))
        = (l.foldl latestStep acc).map (fun x => { x with run_id := f x.run_id })
  | [], acc => rfl
  | r :: rest, acc => by
    rw [List.map_cons, List.foldl_cons, List.foldl_cons,
      latestStep_map_run f acc r, foldl_latestStep_map_run f rest (latestStep acc r)]

/-- The previous-fingerprint lookup is run-agnostic: rewriting every row's
`run_id` commutes with the lookup. -/
theorem latestFingerprint_run_agnostic (fps : List FpRow) (prov ep : String)
    (f : String → String) :
    latestFingerprint (fps.map (fun x => { x with run_id := f x.run_id })) prov ep
      = (latestFingerprint fps prov ep).map
          (fun x => { x with run_id := f x.run_id }) := by
  unfold latestFingerprint
  rw [List.filter_map]
  exact foldl_latestStep_map_run f (List.filter _ fps) none

/-- C7: `record_and_detect_drift` always appends the new fingerprint row;
it appends exactly one drift event iff a prior fingerprint for the pair exists
and its hash differs (given the invariant that stored hashes are non-empty,
which every inserted SHA-256 hex satisfies); the prior consulted is the most
recent by observation time for the exact pair over all stored rows, with no
run scoping; and recording an unchanged structure appends no drift event. -/
theorem record_and_detect_drift_spec (db : DriftDb) (prov ep : String)
    (payload : Json) (t : Nat) (run : String)
    (hinv : ∀ r ∈ db.fingerprints, r.fingerprint_hash ≠ "") :
    (record_and_detect_drift db prov ep payload t run).fingerprints
      = db.fingerprints ++
          [⟨prov, ep, (fingerprint_payload payload).1,
            (fingerprint_payload payload).2, t, run⟩]
    ∧ (record_and_detect_drift db prov ep payload t run).drift_events
      = db.drift_events ++
          (match latestFingerprint db.fingerprints prov ep with
           | some r =>
             if r.fingerprint_hash ≠ (fingerprint_payload payload).1 then
               [⟨prov, ep, r.fingerprint_hash, (fingerprint_payload payload).1,
                 t, run, "Schema/path fingerprint changed"⟩]
             else []
           | none => [])
    ∧ (∀ r, latestFingerprint db.fingerprints prov ep = some r →
        r ∈ db.fingerprints ∧ r.provider_id = prov ∧ r.endpoint = ep
        ∧ ∀ r' ∈ db.fingerprints, r'.provider_id = prov → r'.endpoint = ep →
            r'.observed_at ≤ r.observed_at)
    ∧ (latestFingerprint db.fingerprints prov ep = none ↔
        ∀ r ∈ db.fingerprints, ¬(r.provider_id = prov ∧ r.endpoint = ep))
    ∧ (∀ f : String → String,
        latestFingerprint
            (db.fingerprints.map (fun x => { x with run_id := f x.run_id }))
            prov ep
          = (latestFingerprint db.fingerprints prov ep).map
              (fun x => { x with run_id := f x.run_id }))
    ∧ ((latestFingerprint db.fingerprints prov ep).map (·.fingerprint_hash)
          = some (fingerprint_payload payload).1 →
        (record_and_detect_drift db prov ep payload t run).drift_events
          = db.drift_events) := by
  have hfp : (record_and_detect_drift db prov ep payload t run).fingerprints
      = db.fingerprints ++
          [⟨prov, ep, (fingerprint_payload payload).1,
            (fingerprint_payload payload).2, t, run⟩] := by
    cases hL : latestFingerprint db.fingerprints prov ep with
    | none => simp [record_and_detect_drift, hL]
    | some r =>
      simp only [record_and_detect_drift, hL, Option.map_some]
      split <;> first
        | rfl
        | (split <;> rfl)
  have hdr : (record_and_detect_drift db prov ep payload t run).drift_events
      = db.drift_events ++
          (match latestFingerprint db.fingerprints prov ep with
           | some r =>
             if r.fingerprint_hash ≠ (fingerprint_payload payload).1 then
               [⟨prov, ep, r.fingerprint_hash, (fingerprint_payload payload).1,
                 t, run, "Schema/path fingerprint changed"⟩]
             else []
           | none => []) := by
    cases hL : latestFingerprint db.fingerprints prov ep with
    | none => simp [record_and_detect_drift, hL]
    | some r =>
      have hne : r.fingerprint_hash ≠ "" :=
        hinv r (latestFingerprint_spec db.fingerprints prov ep r hL).1
      have hnem : ¬(r.fingerprint_hash).isEmpty := by
        simpa [String.isEmpty_iff] using hne
      by_cases hd : r.fingerprint_hash = (fingerprint_payload payload).1
      · simp [record_and_detect_drift, hL, hd]
      · simp [record_and_detect_drift, hL, hd, hnem]
  refine ⟨hfp, hdr, fun r => latestFingerprint_spec db.fingerprints prov ep r,
    latestFingerprint_none_iff db.fingerprints prov ep,
    latestFingerprint_run_agnostic db.fingerprints prov ep, ?_⟩
  intro hsame
  rw [hdr]
  obtain ⟨r, hL, hh⟩ : ∃ r, latestFingerprint db.fingerprints prov ep = some r
      ∧ r.fingerprint_hash = (fingerprint_payload payload).1 := by
    cases hL : latestFingerprint db.fingerprints prov ep with
    | none => rw [hL] at hsame; simp at hsame
    | some r =>
      rw [hL] at hsame
      exact ⟨r, rfl, by simpa using hsame⟩
  simp [hL, hh]

/-- Witness for C7 at a concrete database: one stored row for the pair with a
different, non-empty hash. -/
theorem record_and_detect_drift_spec_witness :
    (∀ r ∈ ([⟨"p", "e", "h0", [], 5, "r0"⟩] : List FpRow),
      r.fingerprint_hash ≠ "")
    ∧ (record_and_detect_drift ⟨[⟨"p", "e", "h0", [], 5, "r0"⟩], []⟩
        "p" "e" .null 6 "r1").fingerprints
      = [⟨"p", "e", "h0", [], 5, "r0"⟩] ++
          [⟨"p", "e", (fingerprint_payload .null).1,
            (fingerprint_payload .null).2, 6, "r1"⟩] := by
  have hv : ∀ r ∈ ([⟨"p", "e", "h0", [], 5, "r0"⟩] : List FpRow),
      r.fingerprint_hash ≠ "" := by
    intro r hr
    rw [List.mem_singleton] at hr
    rw [hr]
    decide
  exact ⟨hv, (record_and_detect_drift_spec ⟨[⟨"p", "e", "h0", [], 5, "r0"⟩], []⟩
    "p" "e" .null 6 "r1" hv).1⟩

/-! ## QA gates (claims C8, C9) -/

/-- C8: a minimum gate passes exactly when `actual ≥ threshold`, a maximum
gate exactly when `actual ≤ threshold` (a missing metric fails both); at
threshold 5 an actual of 3 fails with detail `3 < 5` and an actual of 7
passes with detail `7 >= 5`. -/
theorem gate_min_max_threshold_semantics :
    (∀ (name : String) (a t : Int) (unit : String),
      (gate_min name (some a) t unit).passed = decide (a ≥ t)
      ∧ (gate_max name (some a) t unit).passed = decide (a ≤ t)
      ∧ (gate_min name none t unit).passed = false
      ∧ (gate_max name none t unit).passed = false)
    ∧ (gate_min "x" (some 3) 5).passed = false
    ∧ (gate_min "x" (some 3) 5).details = "3 < 5"
    ∧ (gate_min "x" (some 7) 5).passed = true
    ∧ (gate_min "x" (some 7) 5).details = "7 >= 5" := by
  exact ⟨fun name a t unit => ⟨rfl, rfl, rfl, rfl⟩,
    by decide, by decide, by decide, by decide⟩

/-- C9: a relation-backed gate whose candidates all fail to resolve is
recorded failed with the diagnostic naming the expected relations and leaves
the connection untouched; a raising gate query is recorded failed with the
error text and rolls the connection back; every gate evaluator returns a
clean connection when given one, so in `run_qa`'s sequence each gate is
evaluated against a clean connection and no failure reaches later gates. -/
theorem qa_gate_isolation (oracle : QueryOracle) (existing : List String) :
    (∀ (conn : PgConn) (name : String) (thr : Int) (cands : List String)
       (sqlOf : String → String),
      resolve_relation existing cands = none →
      relationMinGate oracle existing conn name thr cands sqlOf
        = (conn, ⟨name, false, none, some thr, missingRelationDetail cands⟩))
    ∧ (∀ (conn : PgConn) (name : String) (thr : Int) (cands : List String)
         (sqlOf : String → String) (rel : String) (e : String),
      conn.failedTx = false →
      resolve_relation existing cands = some rel →
      oracle (sqlOf rel) = .error e →
      relationMinGate oracle existing conn name thr cands sqlOf
        = (⟨false⟩, ⟨name, false, none, some thr,
            clip_text ("query failed: " ++ e)⟩))
    ∧ (∀ (conn : PgConn) (name : String) (thr : Int) (cands : List String)
         (sqlOf : String → String), conn.failedTx = false →
      (relationMinGate oracle existing conn name thr cands sqlOf).1.failedTx
        = false)
    ∧ (∀ (conn : PgConn) (name : String) (thr : Int) (sql unit : String),
        conn.failedTx = false →
      (gate_max_from_query oracle conn name thr sql unit).1.failedTx = false)
    ∧ (∀ (conn : PgConn) (b : Bool), conn.failedTx = false →
      (driftGateSegment oracle conn b).1.failedTx = false)
    ∧ (∀ (mp mpr mrc mf : Int) (b sdbt dbtp : Bool) (dbtd : String),
      qaGateSequence oracle existing ⟨false⟩ mp mpr mrc mf b sdbt dbtp dbtd
        = (⟨false⟩,
           [(relationMinGate oracle existing ⟨false⟩ "providers_ok" mp
              ["gold.mart_provider_coverage", "public_gold.mart_provider_coverage"]
              providersOkSql).2,
            (relationMinGate oracle existing ⟨false⟩ "dim_products_rows" mpr
              ["silver.dim_products", "public_silver.dim_products"]
              dimProductsSql).2,
            (relationMinGate oracle existing ⟨false⟩ "rate_changes_rows" mrc
              ["gold.mart_rate_changes", "public_gold.mart_rate_changes"]
              rateChangesSql).2,
            (gate_max_from_query oracle ⟨false⟩ "products_freshness_hours" mf
              freshnessSql "h").2,
            (driftGateSegment oracle ⟨false⟩ b).2,
            dbtGate sdbt dbtp dbtd])) := by
  have hfetch : ∀ (conn : PgConn) (sql : String), conn.failedTx = false →
      fetch_number oracle conn sql
        = (conn, (oracle sql).map id)
      ∨ ∃ e, oracle sql = .error e ∧
        fetch_number oracle conn sql = (⟨true⟩, .error e) := by
    intro conn sql hc
    unfold fetch_number
    rw [if_neg (by simp [hc])]
    cases ho : oracle sql with
    | ok v => exact Or.inl (by simp)
    | error e => exact Or.inr ⟨e, rfl, rfl⟩
  have hminq : ∀ (conn : PgConn) (name : String) (thr : Int) (sql unit : String),
      conn.failedTx = false →
      (gate_min_from_query oracle conn name thr sql unit).1.failedTx = false := by
    intro conn name thr sql unit hc
    unfold gate_min_from_query fetch_number
    rw [if_neg (by simp [hc])]
    cases ho : oracle sql with
    | ok v => simpa using hc
    | error e => simp [PgConn.rollback]
  have hmaxq : ∀ (conn : PgConn) (name : String) (thr : Int) (sql unit : String),
      conn.failedTx = false →
      (gate_max_from_query oracle conn name thr sql unit).1.failedTx = false := by
    intro conn name thr sql unit hc
    unfold gate_max_from_query fetch_number
    rw [if_neg (by simp [hc])]
    cases ho : oracle sql with
    | ok v => simpa using hc
    | error e => simp [PgConn.rollback]
  have hrel : ∀ (conn : PgConn) (name : String) (thr : Int)
      (cands : List String) (sqlOf : String → String), conn.failedTx = false →
      (relationMinGate oracle existing conn name thr cands sqlOf).1.failedTx
        = false := by
    intro conn name thr cands sqlOf hc
    unfold relationMinGate
    cases hres : resolve_relation existing cands with
    | none => simpa using hc
    | some rel => exact hminq conn name thr (sqlOf rel) "" hc
  have hdrift : ∀ (conn : PgConn) (b : Bool), conn.failedTx = false →
      (driftGateSegment oracle conn b).1.failedTx = false := by
    intro conn b hc
    unfold driftGateSegment fetch_number
    rw [if_neg (by simp [hc])]
    cases ho : oracle driftCountSql with
    | ok v => cases b <;> simpa using hc
    | error e => simp [PgConn.rollback]
  have hclean : ∀ conn : PgConn, conn.failedTx = false → conn = ⟨false⟩ := by
    intro conn hc
    cases conn
    simp_all
  refine ⟨?_, ?_, hrel, hmaxq, hdrift, ?_⟩
  · intro conn name thr cands sqlOf hres
    unfold relationMinGate
    rw [hres]
  · intro conn name thr cands sqlOf rel e hc hres herr
    simp [relationMinGate, hres, gate_min_from_query, fetch_number, hc, herr,
      PgConn.rollback]
  · intro mp mpr mrc mf b sdbt dbtp dbtd
    have e1 : (relationMinGate oracle existing ⟨false⟩ "providers_ok" mp
        ["gold.mart_provider_coverage", "public_gold.mart_provider_coverage"]
        providersOkSql).1 = ⟨false⟩ := hclean _ (hrel _ _ _ _ _ rfl)
    have e2 : (relationMinGate oracle existing ⟨false⟩ "dim_products_rows" mpr
        ["silver.dim_products", "public_silver.dim_products"]
        dimProductsSql).1 = ⟨false⟩ := hclean _ (hrel _ _ _ _ _ rfl)
    have e3 : (relationMinGate oracle existing ⟨false⟩ "rate_changes_rows" mrc
        ["gold.mart_rate_changes", "public_gold.mart_rate_changes"]
        rateChangesSql).1 = ⟨false⟩ := hclean _ (hrel _ _ _ _ _ rfl)
    have e4 : (gate_max_from_query oracle ⟨false⟩ "products_freshness_hours" mf
        freshnessSql "h").1 = ⟨false⟩ := hclean _ (hmaxq _ _ _ _ _ rfl)
    have e5 : (driftGateSegment oracle ⟨false⟩ b).1 = ⟨false⟩ :=
      hclean _ (hdrift _ _ rfl)
    simp only [qaGateSequence, e1, e2, e3, e4, e5]

/-- Witness for C9 at concrete inputs: an empty catalogue makes the first
gate fail with the diagnostic naming both candidate relations, and a raising
oracle makes a resolved gate roll back and fail with the error text. -/
theorem qa_gate_isolation_witness :
    relationMinGate (fun _ => .error "boom") [] ⟨false⟩ "providers_ok" 1
        ["gold.mart_provider_coverage", "public_gold.mart_provider_coverage"]
        providersOkSql
      = (⟨false⟩, ⟨"providers_ok", false, none, some 1,
          missingRelationDetail
            ["gold.mart_provider_coverage", "public_gold.mart_provider_coverage"]⟩)
    ∧ relationMinGate (fun _ => .error "boom") ["silver.dim_products"] ⟨false⟩
        "dim_products_rows" 1 ["silver.dim_products", "public_silver.dim_products"]
        dimProductsSql
      = (⟨false⟩, ⟨"dim_products_rows", false, none, some 1,
          clip_text ("query failed: " ++ "boom")⟩) := by
  constructor
  · exact (qa_gate_isolation (fun _ => .error "boom") []).1 ⟨false⟩
      "providers_ok" 1
      ["gold.mart_provider_coverage", "public_gold.mart_provider_coverage"]
      providersOkSql rfl
  · exact (qa_gate_isolation (fun _ => .error "boom") ["silver.dim_products"]).2.1
      ⟨false⟩ "dim_products_rows" 1
      ["silver.dim_products", "public_silver.dim_products"] dimProductsSql
      "silver.dim_products" "boom" rfl rfl rfl

end CdrPipeline
